import Mathlib

/-!
Shallow embedding of the CSS cascade engine in `src/cascade.ts` of the
`css-cascade-algorithm` repository.

Conventions used throughout:
* JavaScript numbers that only ever hold small non-negative integers are
  modelled as `Nat`.
* The cascade score (a JS float that is either a small non-negative integer
  or `±Infinity`) is modelled by the three-constructor type `Score`.
* A rule's `orderIndex` (a natural number, or `Infinity` for the synthetic
  inline-style rule) is modelled by `OIdx`.
* `undefined`-able fields are modelled with `Option`.
* External browser capabilities (`Element.matches`, `window.matchMedia`,
  `CSS.supports`, the `css-shorthand-properties` package) are modelled as
  function-valued parameters; a capability that can throw is modelled as
  returning `Option Bool`, with `none` standing for a thrown exception.
* The process-wide `globalLayerOrderMap` / `layerOrderCounter` pair is
  modelled as a list of layer names in first-registration order (the map
  only ever receives the values `0, 1, 2, …` in registration order, so the
  list of keys in that order is an exact representation); it is passed to
  the resolver explicitly instead of being ambient module state.
-/


/-- Rule origin, from the `origin` union type in `cascade.ts`. -/
inductive Origin where
  | userAgent
  | user
  | author
  | inline
  | animation
  | transition
deriving DecidableEq, Repr

/-- Cascade score: a JS number that is a non-negative integer or `±Infinity`.
`getCascadeScore` returns `Infinity` / `-Infinity` exactly for
transition-origin declarations. -/
inductive Score where
  | negInf
  | val (n : Nat)
  | posInf
deriving DecidableEq, Repr

/-- Strict comparison on scores, mirroring `<` on the JS numbers involved. -/
def Score.blt : Score → Score → Bool
  | .negInf, .negInf => false
  | .negInf, _ => true
  | .val _, .negInf => false
  | .val m, .val n => m < n
  | .val _, .posInf => true
  | .posInf, _ => false

/-- A rule's global order index: a natural number assigned at discovery time,
or `Infinity` (`inf`) for the synthetic inline-style rule. -/
inductive OIdx where
  | fin (n : Nat)
  | inf
deriving DecidableEq, Repr

/-- Sign of the JS subtraction `x - y` on order indices, as used by the sort
comparator (`b._ruleOrderIndex! - a._ruleOrderIndex!`).  `Infinity - Infinity`
is `NaN`, which the sort treats as `0`. -/
def oidxCmp : OIdx → OIdx → Int
  | .inf, .inf => 0
  | .inf, .fin _ => 1
  | .fin _, .inf => -1
  | .fin m, .fin n => if n < m then 1 else if m < n then -1 else 0

/-- 4-component specificity tuple `[i1, i2, i3, i4]` (`SpecificityVal`). -/
abbrev SpecVal := Nat × Nat × Nat × Nat

/-- `specificityGreater` from `cascade.ts`: first-difference lexicographic
comparison, `some true` if the first is greater, `some false` if smaller,
`none` (JS `null`) if all four components are equal. -/
def specificityGreater (s1 s2 : SpecVal) : Option Bool :=
  if s2.1 < s1.1 then some true
  else if s1.1 < s2.1 then some false
  else if s2.2.1 < s1.2.1 then some true
  else if s1.2.1 < s2.2.1 then some false
  else if s2.2.2.1 < s1.2.2.1 then some true
  else if s1.2.2.1 < s2.2.2.1 then some false
  else if s2.2.2.2 < s1.2.2.2 then some true
  else if s1.2.2.2 < s2.2.2.2 then some false
  else none

/-- The Layer Order Registry (`globalLayerOrderMap` plus `layerOrderCounter`):
layer names in first-registration order; a name's order is its index. -/
abbrev LayerReg := List String

/-- Order of a layer name in the registry (`globalLayerOrderMap.get`). -/
def layerLookup : LayerReg → String → Option Nat
  | [], _ => none
  | x :: xs, n => if x = n then some 0 else (layerLookup xs n).map (· + 1)

/-- `recordLayer`: assign the next counter value if the name is unseen
(`if (!globalLayerOrderMap.has(name)) globalLayerOrderMap.set(name, layerOrderCounter++)`). -/
def recordLayer (reg : LayerReg) (name : String) : LayerReg :=
  if layerLookup reg name = none then reg ++ [name] else reg

/-- `overshadowedBy` payload: `{ ruleSelector, layerName? }`. -/
structure OvershadowInfo where
  ruleSelector : String
  layerName : Option String
deriving DecidableEq, Repr

/-- A candidate declaration as pushed into `propertiesToConsider`
(`cascade.ts` lines 567-575): a `CSSPropertyInfo` whose `specificity`,
`_ruleOrderIndex` and `_ruleOrigin` fields are always assigned from the
parent rule, so these three fields are not `Option`-typed here. -/
structure Candidate where
  name : String
  value : String
  important : Bool
  source : String
  layerName : Option String
  specificity : SpecVal
  active : Bool
  overshadowedBy : Option OvershadowInfo
  inherited : Bool
  originalPropertyName : Option String
  orderIndex : OIdx
  origin : Origin
deriving DecidableEq, Repr

/-- The layer order consulted by `getCascadeScore`:
`prop.layerName ? globalLayerOrderMap.get(prop.layerName) : undefined`
(a missing layer name, or the falsy empty string, yields `undefined`, and so
does a name absent from the registry). -/
def candLayerOrder (reg : LayerReg) (prop : Candidate) : Option Nat :=
  match prop.layerName with
  | none => none
  | some n => if n = "" then none else layerLookup reg n

/-- `getCascadeScore` from `cascade.ts` (lines 588-653), with the ambient
`globalLayerOrderMap` passed in as `reg`. -/
def getCascadeScore (reg : LayerReg) (prop : Candidate) : Score :=
  let layerOrder := candLayerOrder reg prop
  let isLayered := layerOrder.isSome
  let totalLayers := reg.length
  let INC := totalLayers + 1
  -- Step 1: transitions are the absolute highest and lowest of the cascade.
  if prop.origin = Origin.transition then
    if prop.important then Score.posInf else Score.negInf
  -- Step 2: !important declarations.
  else if prop.important then
    Score.val (match prop.origin with
      | .userAgent => INC * 11
      | .user => INC * 10
      | .inline => INC * 9
      | .author =>
        INC * 8 +
          (if isLayered then totalLayers - (layerOrder.getD 0) else 0)
      | .animation => INC * 7
      | .transition => 0)
  -- Step 3: normal declarations.
  else
    Score.val (match prop.origin with
      | .animation => INC * 6
      | .inline => INC * 5
      | .author =>
        INC * 3 + (match layerOrder with | some k => k | none => INC)
      | .user => INC * 2
      | .userAgent => INC * 1
      | .transition => 0)

/-- The sort comparator of `resolveCascadeForElement` (lines 660-677),
normalised to return a sign in `{-1, 0, 1}` (only the sign of the JS return
value matters to `Array.prototype.sort`).  The source guard
`if (a.specificity && b.specificity)` is always true for candidates, whose
`specificity` is unconditionally assigned at construction (line 574). -/
def declCmp (reg : LayerReg) (a b : Candidate) : Int :=
  if getCascadeScore reg a = getCascadeScore reg b then
    match specificityGreater a.specificity b.specificity with
    | some true => -1
    | some false => 1
    | none => oidxCmp b.orderIndex a.orderIndex
  else if Score.blt (getCascadeScore reg a) (getCascadeScore reg b) then 1 else -1

/-- The band rank claimed for `!important` declarations, high to low:
user-agent > user > inline > author > animation (transitions are handled
separately and given rank 0 here). -/
def impBandRank : Origin → Nat
  | .userAgent => 5
  | .user => 4
  | .inline => 3
  | .author => 2
  | .animation => 1
  | .transition => 0

/-- The band rank claimed for normal declarations, high to low:
animation > inline > author > user > user-agent (the author band is refined
further by layering). -/
def normBandRank : Origin → Nat
  | .animation => 4
  | .inline => 3
  | .author => 2
  | .user => 1
  | .userAgent => 0
  | .transition => 0

/-- Lower edge (in units of `INC = totalLayers + 1`) of each normal band. -/
def normBandLo : Origin → Nat
  | .animation => 6
  | .inline => 5
  | .author => 3
  | .user => 2
  | .userAgent => 1
  | .transition => 0

/-- Upper edge (in units of `INC`) of each normal band; the author band spans
two widths because unlayered author-normal declarations score `INC * 4`. -/
def normBandHi : Origin → Nat
  | .animation => 6
  | .inline => 5
  | .author => 4
  | .user => 2
  | .userAgent => 1
  | .transition => 0

/-- A generic candidate used to build concrete witnesses. -/
def baseCand : Candidate :=
  { name := "color"
    value := "red"
    important := false
    source := "s.css"
    layerName := none
    specificity := (0, 0, 0, 0)
    active := false
    overshadowedBy := none
    inherited := false
    originalPropertyName := some "color"
    orderIndex := OIdx.fin 0
    origin := Origin.author }

/-- The comparison relation handed to the sort: `a` is ordered no later than
`b` when the comparator is non-positive (JS sort semantics for a comparator
returning a negative/zero value). -/
def declLe (reg : LayerReg) (a b : Candidate) : Prop :=
  declCmp reg a b ≤ 0

instance (reg : LayerReg) : DecidableRel (declLe reg) := fun a b =>
  inferInstanceAs (Decidable (declCmp reg a b ≤ 0))

/-- The per-property sort of `resolveCascadeForElement` (line 660):
`declarations.sort(comparator)`.  `Array.prototype.sort` with a consistent
comparator is a stable sort; it is modelled with a stable insertion sort on
the comparator's non-strict order. -/
def sortCands (reg : LayerReg) (cands : List Candidate) : List Candidate :=
  cands.insertionSort (declLe reg)

/-- The per-property winner of `resolveCascadeForElement` (lines 679-685):
the head of the sorted candidate list, stored with `active: true`; `none`
when the property has no candidates. -/
def resolveProperty (reg : LayerReg) (cands : List Candidate) : Option Candidate :=
  match sortCands reg cands with
  | [] => none
  | w :: _ => some { w with active := true }

/-- `needle` is a prefix of the second list (character-level helper for the
JS `String.prototype.includes` used by `mapPropToPhysical`). -/
def chPfx : List Char → List Char → Bool
  | [], _ => true
  | _ :: _, [] => false
  | a :: as, b :: bs => a = b && chPfx as bs

/-- `needle` occurs as a contiguous run somewhere in the list. -/
def chSub (needle : List Char) : List Char → Bool
  | [] => chPfx needle []
  | b :: bs => chPfx needle (b :: bs) || chSub needle bs

/-- JS `s.includes(sub)`. -/
def strIncl (s sub : String) : Bool := chSub sub.toList s.toList

/-- The hand-authored `logicalPropsMaps_` table of `cascade.ts`
(lines 831-885), before recursive expansion. -/
def logicalPropsMaps0 : List (String × List String) := [
  ("block-size", ["width", "height"]),
  ("inline-size", ["width", "height"]),
  ("min-block-size", ["min-width", "min-height"]),
  ("min-inline-size", ["min-width", "min-height"]),
  ("max-block-size", ["max-width", "max-height"]),
  ("max-inline-size", ["max-width", "max-height"]),
  ("margin-block-start", ["margin-top", "margin-bottom", "margin-left", "margin-right"]),
  ("margin-block-end", ["margin-top", "margin-bottom", "margin-left", "margin-right"]),
  ("margin-inline-start", ["margin-top", "margin-bottom", "margin-left", "margin-right"]),
  ("margin-inline-end", ["margin-top", "margin-bottom", "margin-left", "margin-right"]),
  ("margin-block", ["margin-block-start", "margin-block-end"]),
  ("margin-inline", ["margin-inline-start", "margin-inline-end"]),
  ("inset-block-start", ["top", "bottom", "left", "right"]),
  ("inset-block-end", ["top", "bottom", "left", "right"]),
  ("inset-inline-start", ["top", "bottom", "left", "right"]),
  ("inset-inline-end", ["top", "bottom", "left", "right"]),
  ("inset-block", ["inset-block-start", "inset-block-end"]),
  ("inset-inline", ["inset-inline-start", "inset-inline-end"]),
  ("inset", ["top", "right", "bottom", "left"]),
  ("padding-block-start", ["padding-top", "padding-bottom", "padding-left", "padding-right"]),
  ("padding-block-end", ["padding-top", "padding-bottom", "padding-left", "padding-right"]),
  ("padding-inline-start", ["padding-top", "padding-bottom", "padding-left", "padding-right"]),
  ("padding-inline-end", ["padding-top", "padding-bottom", "padding-left", "padding-right"]),
  ("padding-block", ["padding-block-start", "padding-block-end"]),
  ("padding-inline", ["padding-inline-start", "padding-inline-end"]),
  ("border-block-start-width", ["border-top-width", "border-bottom-width", "border-left-width", "border-right-width"]),
  ("border-block-end-width", ["border-top-width", "border-bottom-width", "border-left-width", "border-right-width"]),
  ("border-inline-start-width", ["border-top-width", "border-bottom-width", "border-left-width", "border-right-width"]),
  ("border-inline-end-width", ["border-top-width", "border-bottom-width", "border-left-width", "border-right-width"]),
  ("border-block-width", ["border-block-start-width", "border-block-end-width"]),
  ("border-inline-width", ["border-inline-start-width", "border-inline-end-width"]),
  ("border-block-start-style", ["border-top-style", "border-bottom-style", "border-left-style", "border-right-style"]),
  ("border-block-end-style", ["border-top-style", "border-bottom-style", "border-left-style", "border-right-style"]),
  ("border-inline-start-style", ["border-top-style", "border-bottom-style", "border-left-style", "border-right-style"]),
  ("border-inline-end-style", ["border-top-style", "border-bottom-style", "border-left-style", "border-right-style"]),
  ("border-block-style", ["border-block-start-style", "border-block-end-style"]),
  ("border-inline-style", ["border-inline-start-style", "border-inline-end-style"]),
  ("border-block-start-color", ["border-top-color", "border-bottom-color", "border-left-color", "border-right-color"]),
  ("border-block-end-color", ["border-top-color", "border-bottom-color", "border-left-color", "border-right-color"]),
  ("border-inline-start-color", ["border-top-color", "border-bottom-color", "border-left-color", "border-right-color"]),
  ("border-inline-end-color", ["border-top-color", "border-bottom-color", "border-left-color", "border-right-color"]),
  ("border-block-color", ["border-block-start-color", "border-block-end-color"]),
  ("border-inline-color", ["border-inline-start-color", "border-inline-end-color"]),
  ("border-block-start", ["border-top", "border-bottom", "border-left", "border-right"]),
  ("border-block-end", ["border-top", "border-bottom", "border-left", "border-right"]),
  ("border-inline-start", ["border-top", "border-bottom", "border-left", "border-right"]),
  ("border-inline-end", ["border-top", "border-bottom", "border-left", "border-right"]),
  ("border-block", ["border-block-start", "border-block-end"]),
  ("border-inline", ["border-inline-start", "border-inline-end"]),
  ("border-start-start-radius", ["border-top-left-radius", "border-bottom-left-radius", "border-top-right-radius", "border-bottom-right-radius"]),
  ("border-start-end-radius", ["border-top-left-radius", "border-bottom-left-radius", "border-top-right-radius", "border-bottom-right-radius"]),
  ("border-end-start-radius", ["border-top-left-radius", "border-bottom-left-radius", "border-top-right-radius", "border-bottom-right-radius"]),
  ("border-end-end-radius", ["border-top-left-radius", "border-bottom-left-radius", "border-top-right-radius", "border-bottom-right-radius"])]

/-- `expandProp` of `cascade.ts` (lines 888-898): recursively expand a
property name until no name appears as a key of the map.  The JS recursion
has no explicit bound; chains in the concrete table have depth at most 2,
so any fuel of at least the table length gives the JS result.  An exhausted
fuel returns the name unchanged. -/
def expandProp (fuel : Nat) (maps : List (String × List String)) (prop : String) :
    List String :=
  match fuel with
  | 0 => [prop]
  | Nat.succ f =>
    match maps.find? (fun m => m.fst = prop) with
    | none => [prop]
    | some m => (m.snd.map (fun p => expandProp f maps p)).flatten

/-- Insertion-ordered de-duplication, as performed by `new Set(...)` in
`expandLogicalProps` (the first occurrence of each name is kept). -/
def dedupFirst (seen : List String) : List String → List String
  | [] => []
  | a :: rest =>
    if a ∈ seen then dedupFirst seen rest else a :: dedupFirst (a :: seen) rest

/-- `expandLogicalProps` of `cascade.ts` (lines 900-909). -/
def expandLogicalProps (maps : List (String × List String)) :
    List (String × List String) :=
  maps.map (fun m => (m.fst, dedupFirst [] (expandProp maps.length maps m.fst)))

/-- The fully-expanded `logicalPropsMaps` (line 915): every logical property
maps to the full list of physical properties it may resolve to. -/
def logicalPropsMaps : List (String × List String) :=
  expandLogicalProps logicalPropsMaps0

/-- Physical direction, the `PhysicalDir` union of `mapPropToPhysical`. -/
inductive Dir where
  | top
  | right
  | bottom
  | left
deriving DecidableEq, Repr

/-- `oppositeDir` of `mapPropToPhysical` (lines 966-973). -/
def oppositeDir : Dir → Dir
  | .top => .bottom
  | .bottom => .top
  | .left => .right
  | .right => .left

/-- The `match` helper of `mapPropToPhysical` (lines 975-980): "width"
stands in for left/right and "height" for top/bottom. -/
def dirMatch (paramName : String) : Dir → Bool
  | .left => strIncl paramName "left" || strIncl paramName "width"
  | .right => strIncl paramName "right" || strIncl paramName "width"
  | .top => strIncl paramName "top" || strIncl paramName "height"
  | .bottom => strIncl paramName "bottom" || strIncl paramName "height"

/-- `match` applied to a possibly-unresolved direction: with an unknown
writing mode the JS `blockStart`/`inlineStart` stay `undefined` and
`match(name, undefined)` is falsy. -/
def dirMatchO (paramName : String) : Option Dir → Bool
  | none => false
  | some d => dirMatch paramName d

/-- A declaration of the `style` attribute of an element
(`element.style[i]`, `getPropertyValue`, `getPropertyPriority`). -/
structure InlineDecl where
  name : String
  value : String
  important : Bool
deriving DecidableEq, Repr

/-- The element-dependent external capabilities consumed by the resolver:
`Element.matches` (returning `none` when it throws on a malformed selector),
the inline `style` attribute, and the computed writing-mode, direction and
text-orientation read by `mapPropToPhysical`. -/
structure Elem where
  matchesSel : String → Option Bool
  inlineDecls : List InlineDecl
  writingMode : String
  direction : String
  textOrientation : String

/-- The element-independent external capabilities: `isShorthand`/`expand`
from `css-shorthand-properties`, `window.matchMedia` and `CSS.supports`
(the latter two return `none` when evaluation throws). -/
structure Caps where
  isShorthandFn : String → Bool
  expandFn : String → List String
  matchMedia : String → Option Bool
  supportsCheck : String → Option Bool

/-- The `blockStart`/`inlineStart` resolution of `mapPropToPhysical`
(lines 933-964), including the `|| "horizontal-tb"` and `|| "ltr"` fallbacks
for empty computed values; `none` when the writing mode is not one of the
five recognised values (the JS variables then stay `undefined`). -/
def resolveDirs (el : Elem) : Option (Dir × Dir) :=
  let writingMode := if el.writingMode = "" then "horizontal-tb" else el.writingMode
  let direction := if el.direction = "" then "ltr" else el.direction
  let isLTR := direction = "ltr"
  let isUpright := el.textOrientation = "upright"
  if writingMode = "horizontal-tb" then
    some (Dir.top, if isLTR then Dir.left else Dir.right)
  else if writingMode = "vertical-rl" then
    some (Dir.right, if isLTR || isUpright then Dir.top else Dir.bottom)
  else if writingMode = "sideways-rl" then
    some (Dir.right, if isLTR then Dir.top else Dir.bottom)
  else if writingMode = "vertical-lr" then
    some (Dir.left, if isLTR || isUpright then Dir.top else Dir.bottom)
  else if writingMode = "sideways-lr" then
    some (Dir.left, if isLTR then Dir.bottom else Dir.top)
  else none

/-- `mapPropToPhysical` of `cascade.ts` (lines 919-1008).  The source first
tests `logicalPropsMaps.some(...)` and later re-finds the entry with a
non-null assertion; both are combined into one `find?` here.  A non-logical
name goes to the external shorthand capability or is returned unchanged. -/
def mapPropToPhysical (caps : Caps) (el : Elem) (propName : String) : List String :=
  match logicalPropsMaps.find? (fun m => m.fst = propName) with
  | none =>
    if caps.isShorthandFn propName then caps.expandFn propName else [propName]
  | some entry =>
    let dirs := resolveDirs el
    let blockStart := dirs.map Prod.fst
    let inlineStart := dirs.map Prod.snd
    entry.snd.filter (fun physical =>
      if strIncl propName "block-start" then dirMatchO physical blockStart
      else if strIncl propName "block-end" then
        dirMatchO physical (blockStart.map oppositeDir)
      else if strIncl propName "inline-start" then dirMatchO physical inlineStart
      else if strIncl propName "inline-end" then
        dirMatchO physical (inlineStart.map oppositeDir)
      else if strIncl propName "start-start" then
        dirMatchO physical blockStart && dirMatchO physical inlineStart
      else if strIncl propName "start-end" then
        dirMatchO physical blockStart && dirMatchO physical (inlineStart.map oppositeDir)
      else if strIncl propName "end-start" then
        dirMatchO physical (blockStart.map oppositeDir) && dirMatchO physical inlineStart
      else if strIncl propName "end-end" then
        dirMatchO physical (blockStart.map oppositeDir) &&
          dirMatchO physical (inlineStart.map oppositeDir)
      else if strIncl propName "block" then
        dirMatchO physical blockStart || dirMatchO physical (blockStart.map oppositeDir)
      else if strIncl propName "inline" then
        dirMatchO physical inlineStart || dirMatchO physical (inlineStart.map oppositeDir)
      else true)

/-- The `type` union of `ConditionalContext` in `cascade.ts`. -/
inductive CtxKind where
  | media
  | supports
  | container
  | none
deriving DecidableEq, Repr

/-- `ConditionalContext`: kind, condition text, and the applicability flag
computed at discovery time (the resolver re-evaluates instead of reading
`applies`). -/
structure ConditionalContext where
  kind : CtxKind
  condition : String
  applies : Bool
deriving DecidableEq, Repr

/-- `evaluateMediaQuery` (lines 432-439): `window.matchMedia(q).matches`,
returning the conservative `false` when the call throws on a malformed
query. -/
def evaluateMediaQuery (caps : Caps) (q : String) : Bool :=
  (caps.matchMedia q).getD false

/-- `evaluateSupportsQuery` (lines 447-456): `CSS.supports` on the cleaned
query (the `@supports`-prefix strip happens inside the external capability
boundary here), returning `false` when evaluation throws. -/
def evaluateSupportsQuery (caps : Caps) (q : String) : Bool :=
  (caps.supportsCheck q).getD false

/-- `evaluateContainerQuery` (lines 465-476): a placeholder that always
returns `true` pending an `Element.matchContainer()` browser primitive. -/
def evaluateContainerQuery (_q : String) (_el : Elem) : Bool :=
  true

/-- One arm of the `switch` inside `areConditionalContextsMet` (lines
489-502); the `default: return false` arm is unreachable with the closed
kind union. -/
def evalContext (caps : Caps) (el : Elem) (context : ConditionalContext) : Bool :=
  match context.kind with
  | .media => evaluateMediaQuery caps context.condition
  | .supports => evaluateSupportsQuery caps context.condition
  | .container => evaluateContainerQuery context.condition el
  | .none => true

/-- `areConditionalContextsMet` (lines 485-503): the conjunction
(`contexts.every`) of the per-kind evaluations. -/
def areConditionalContextsMet (caps : Caps) (contexts : List ConditionalContext)
    (el : Elem) : Bool :=
  contexts.all (evalContext caps el)

/-- A rule-level `CSSPropertyInfo` as produced by discovery or the inline
synthesiser: `specificity` is optional here (inline-style properties carry
none), unlike on `Candidate`. -/
structure CSSPropertyInfo where
  name : String
  value : String
  important : Bool
  source : String
  layerName : Option String
  specificity : Option SpecVal
  active : Bool
  overshadowedBy : Option OvershadowInfo
  inherited : Bool
  originalPropertyName : Option String
deriving DecidableEq, Repr

/-- `CSSRuleAnalysis` from `cascade.ts`. -/
structure CSSRuleAnalysis where
  selector : String
  specificity : SpecVal
  properties : List CSSPropertyInfo
  stylesheetUrl : String
  layerName : Option String
  origin : Origin
  orderIndex : OIdx
  conditionalContexts : List ConditionalContext
deriving DecidableEq, Repr

/-- `getMatchingRulesForElement` (lines 512-536): keep a rule when
`element.matches(rule.selector)` succeeds and returns `true` and all
conditional contexts are met; a thrown selector error (`none`) skips the
rule. -/
def getMatchingRulesForElement (caps : Caps) (el : Elem)
    (allRules : List CSSRuleAnalysis) : List CSSRuleAnalysis :=
  allRules.filter (fun rule =>
    match el.matchesSel rule.selector with
    | Option.none => false
    | some false => false
    | some true => areConditionalContextsMet caps rule.conditionalContexts el)

/-- `getInlineStylesForElement` (lines 314-351): a synthetic rule for the
element's `style` attribute, or `none` when there are no inline
declarations. -/
def getInlineStylesForElement (el : Elem) : Option CSSRuleAnalysis :=
  if el.inlineDecls.isEmpty then none
  else some
    { conditionalContexts := []
      selector := "[inline]"
      specificity := (1, 0, 0, 0)
      properties := el.inlineDecls.map (fun d =>
        { name := d.name
          value := d.value
          important := d.important
          active := false
          inherited := false
          source := "inline"
          layerName := none
          specificity := none
          overshadowedBy := none
          originalPropertyName := some d.name })
      stylesheetUrl := "inline"
      layerName := none
      origin := Origin.inline
      orderIndex := OIdx.inf }

/-- `expandProperty` (lines 1010-1040) in the resolver path, where the
element is always supplied: every physical name from `mapPropToPhysical`
yields a fresh property record inheriting the original's data and recording
the original declared name. -/
def expandProperty (caps : Caps) (el : Elem) (originalProp : CSSPropertyInfo) :
    List CSSPropertyInfo :=
  (mapPropToPhysical caps el originalProp.name).map (fun physicalName =>
    { name := physicalName
      value := originalProp.value
      important := originalProp.important
      active := false
      inherited := false
      source := originalProp.source
      layerName := originalProp.layerName
      specificity := originalProp.specificity
      originalPropertyName := some originalProp.name
      overshadowedBy := none })

/-- The candidate-collection loop of `resolveCascadeForElement`
(lines 557-578): every declaration of every matching rule is expanded and
pushed with the parent rule's `specificity`, `orderIndex` and `origin`. -/
def collectCandidates (caps : Caps) (el : Elem)
    (matchingRules : List CSSRuleAnalysis) : List Candidate :=
  matchingRules.flatMap (fun rule =>
    rule.properties.flatMap (fun prop =>
      (expandProperty caps el prop).map (fun ep =>
        { name := ep.name
          value := ep.value
          important := ep.important
          source := ep.source
          layerName := ep.layerName
          specificity := rule.specificity
          active := ep.active
          overshadowedBy := ep.overshadowedBy
          inherited := ep.inherited
          originalPropertyName := ep.originalPropertyName
          orderIndex := rule.orderIndex
          origin := rule.origin })))

/-- The candidates grouped under one physical property name
(`propertiesToConsider[name]`), in push order. -/
def candidatesFor (cands : List Candidate) (n : String) : List Candidate :=
  cands.filter (fun c => c.name = n)

/-- The property names of `propertiesToConsider` in key-insertion order
(JS object keys enumerate in insertion order for string keys). -/
def propNames (cands : List Candidate) : List String :=
  dedupFirst [] (cands.map (fun c => c.name))

/-- `finalProperties` as an insertion-ordered association list: for each
property name, the winning declaration from `resolveProperty`. -/
def finalPropertiesList (reg : LayerReg) (cands : List Candidate) :
    List (String × Candidate) :=
  (propNames cands).filterMap (fun n =>
    (resolveProperty reg (candidatesFor cands n)).map (fun w => (n, w)))

/-- `originalPropertyName || name`: the value stored as `ruleSelector` of a
loser's `overshadowedBy` in the per-property loop (line 693). -/
def ovSelName (d : Candidate) : String :=
  match d.originalPropertyName with
  | some s => if s = "" then d.name else s
  | Option.none => d.name

/-- The loser-marking loop of `resolveCascadeForElement` (lines 687-697)
applied to a sorted candidate list: the head (winner) is left as is (only
its copy in `finalProperties` gets `active: true`); every later candidate
is set `active: false` with `overshadowedBy` built from the loser's own
original property name and the loser's own layer. -/
def markOvershadowed (sorted : List Candidate) : List Candidate :=
  match sorted with
  | [] => []
  | w :: rest =>
    w :: rest.map (fun d =>
      { d with
        active := false
        overshadowedBy := some { ruleSelector := ovSelName d, layerName := d.layerName } })

/-- The identifier comparison of the rule-level re-stamp (lines 768-781):
value, importance, source, layer, rule order index, all four specificity
components (a rule property without specificity never matches, since the
final property always has one), and original property name. -/
def stampCheck (finalProp : Candidate) (rule : CSSRuleAnalysis)
    (prop : CSSPropertyInfo) : Bool :=
  finalProp.value = prop.value &&
  finalProp.important = prop.important &&
  finalProp.source = prop.source &&
  finalProp.layerName = prop.layerName &&
  finalProp.orderIndex = rule.orderIndex &&
  (match prop.specificity with
   | some s => s = finalProp.specificity
   | Option.none => false) &&
  prop.originalPropertyName = finalProp.originalPropertyName

/-- The per-declaration body of the rule-level re-stamp (lines 757-795):
find the first final property whose winner's `originalPropertyName` equals
this declaration's declared name (`finalProperties[match[1].name]` re-reads
the same winner, since the winner of key `n` has `name = n`); stamp
`active: true` on an identifier match, otherwise `active: false` with
`overshadowedBy` from the losing rule's own selector and the winner's
layer (or no `overshadowedBy` when no final property matched). -/
def stampProp (finalProps : List (String × Candidate)) (rule : CSSRuleAnalysis)
    (prop : CSSPropertyInfo) : CSSPropertyInfo :=
  match finalProps.find? (fun kv => kv.snd.originalPropertyName = some prop.name) with
  | some kv =>
    if stampCheck kv.snd rule prop then
      { prop with active := true }
    else
      { prop with
        active := false
        overshadowedBy := some { ruleSelector := rule.selector, layerName := kv.snd.layerName } }
  | Option.none => { prop with active := false, overshadowedBy := none }

/-- One rule of `updatedMatchingRules` (lines 756-797). -/
def annotateRuleProps (finalProps : List (String × Candidate))
    (rule : CSSRuleAnalysis) : CSSRuleAnalysis :=
  { rule with properties := rule.properties.map (stampProp finalProps rule) }

/-- `ElementStyleAnalysis` (the `element` and browser `computedStyles`
fields of the source record are external handles and are omitted). -/
structure ElementStyleAnalysis where
  matchingRules : List CSSRuleAnalysis
  finalProperties : List (String × Candidate)
deriving DecidableEq, Repr

/-- `resolveCascadeForElement` (lines 545-805): filter matching rules,
append the synthetic inline rule, collect and group expanded candidates,
resolve each property by the cascade sort, and re-stamp the matching rules
with `active`/`overshadowedBy`.  The post-cascade inheritance fallback
(lines 700-742) is driven entirely by external computed styles and only
adds synthetic entries for properties with no candidates; it is outside the
claims modelled here and omitted. -/
def resolveCascadeForElement (reg : LayerReg) (caps : Caps) (el : Elem)
    (allRules : List CSSRuleAnalysis) : ElementStyleAnalysis :=
  let matchingRules := getMatchingRulesForElement caps el allRules
  let matchingRules :=
    match getInlineStylesForElement el with
    | some inlineRule => matchingRules ++ [inlineRule]
    | Option.none => matchingRules
  let cands := collectCandidates caps el matchingRules
  let finalProps := finalPropertiesList reg cands
  { matchingRules := matchingRules.map (annotateRuleProps finalProps)
    finalProperties := finalProps }

/-- External capabilities for the concrete two-rule scenario. -/
def capsW : Caps :=
  { isShorthandFn := fun _ => false
    expandFn := fun _ => []
    matchMedia := fun _ => some true
    supportsCheck := fun _ => some true }

/-- An element matched by the selectors `.a` and `.b`, with no inline style. -/
def elW : Elem :=
  { matchesSel := fun s => some (s == ".a" || s == ".b")
    inlineDecls := []
    writingMode := "horizontal-tb"
    direction := "ltr"
    textOrientation := "" }

/-- A `color` declaration record for the concrete scenario. -/
def ovProp (v : String) (sp : SpecVal) : CSSPropertyInfo :=
  { name := "color"
    value := v
    important := false
    source := "s.css"
    layerName := none
    specificity := some sp
    active := false
    overshadowedBy := none
    inherited := false
    originalPropertyName := some "color" }

/-- `.a { color: red }` with class-level specificity, first in order. -/
def ovRuleA : CSSRuleAnalysis :=
  { selector := ".a"
    specificity := (0, 0, 1, 0)
    properties := [ovProp "red" (0, 0, 1, 0)]
    stylesheetUrl := "s.css"
    layerName := none
    origin := Origin.author
    orderIndex := OIdx.fin 0
    conditionalContexts := [] }

/-- `.b { color: blue }` with id-level specificity, second in order; its
declaration wins the `color` property. -/
def ovRuleB : CSSRuleAnalysis :=
  { selector := ".b"
    specificity := (0, 1, 0, 0)
    properties := [ovProp "blue" (0, 1, 0, 0)]
    stylesheetUrl := "s.css"
    layerName := none
    origin := Origin.author
    orderIndex := OIdx.fin 1
    conditionalContexts := [] }

/-- Reset the two resolution-output fields of a declaration. -/
def stripPropAnnotations (p : CSSPropertyInfo) : CSSPropertyInfo :=
  { p with active := false, overshadowedBy := none }

/-- Reset the resolution-output fields of every declaration of a rule. -/
def stripRuleAnnotations (r : CSSRuleAnalysis) : CSSRuleAnalysis :=
  { r with properties := r.properties.map stripPropAnnotations }

/-- The two pieces of process-wide discovery state of `cascade.ts`:
`globalLayerOrderMap` / `layerOrderCounter` (as the registration-ordered
name list `layers`) and `processedSheets` (identifier membership only). -/
structure DiscoveryState where
  layers : LayerReg
  processed : List String
deriving DecidableEq, Repr

/-- The CSSOM shapes traversed by `processCSSRules`, restricted to the
state-relevant structure: style rules, `@import` (recursing into an
identified sheet), `@layer` blocks (an anonymous block carries its
generated `anonymous-…` name), `@layer` statements, and the three
conditional grouping rules.  The random `rule-group-…` identifiers of
grouping rules never collide, so their processed-set check never fires and
is not modelled; the check is modelled where it can fire, on sheets. -/
inductive CSSNode where
  | styleRule (selector : String)
  | importRule (ident : String) (children : List CSSNode)
  | layerBlock (name : String) (children : List CSSNode)
  | layerStatement (names : List String)
  | mediaBlock (cond : String) (children : List CSSNode)
  | supportsBlock (cond : String) (children : List CSSNode)
  | containerBlock (cond : String) (children : List CSSNode)

mutual

/-- The state effects of one iteration of the rule loop of
`processCSSRules` (lines 142-291): a layer block records its name before
recursing, a layer statement records each listed name, grouping rules
recurse, an import recurses into the imported sheet (identifier checked),
and a style rule leaves the state unchanged. -/
def processNode (st : DiscoveryState) : CSSNode → DiscoveryState
  | .styleRule _ => st
  | .importRule ident children => processSheet st ident children
  | .layerBlock name children =>
    processNodes { st with layers := recordLayer st.layers name } children
  | .layerStatement names => { st with layers := names.foldl recordLayer st.layers }
  | .mediaBlock _ children => processNodes st children
  | .supportsBlock _ children => processNodes st children
  | .containerBlock _ children => processNodes st children

/-- Left-to-right traversal of a rule list. -/
def processNodes (st : DiscoveryState) : List CSSNode → DiscoveryState
  | [] => st
  | n :: ns => processNodes (processNode st n) ns

/-- Entry of `processCSSRules` for a sheet (lines 106-119): skip an
already-processed identifier, otherwise record it and traverse the rules. -/
def processSheet (st : DiscoveryState) (ident : String) (nodes : List CSSNode) :
    DiscoveryState :=
  if ident ∈ st.processed then st
  else processNodes { st with processed := st.processed ++ [ident] } nodes

end

/-- The state behaviour of `getAllCSSRules` (lines 91-306): the processed
set is reinitialised at the start (`processedSheets = new Set()`, line 95),
after which every document and detached sheet is processed in order.  The
layer registry is *not* touched by the initialisation. -/
def getAllCSSRules (st : DiscoveryState)
    (sheets : List (String × List CSSNode)) : DiscoveryState :=
  sheets.foldl (fun s sheet => processSheet s sheet.fst sheet.snd)
    { st with processed := [] }

/-! ## Theorems -/

/-- A layer order recorded in the registry is strictly below the total number
of layers (the registry assigns the orders `0, 1, …, size - 1`). -/
theorem layerLookup_lt_length (reg : LayerReg) (n : String) (k : Nat)
    (h : layerLookup reg n = some k) : k < reg.length := by
  induction reg generalizing k with
  | nil => simp [layerLookup] at h
  | cons x xs ih =>
    simp only [layerLookup] at h
    by_cases hx : x = n
    · rw [if_pos hx] at h
      simp at h
      simp only [List.length_cons]
      omega
    · rw [if_neg hx] at h
      rcases hm : layerLookup xs n with _ | j
      · rw [hm] at h; simp at h
      · rw [hm] at h
        simp at h
        have := ih j hm
        simp only [List.length_cons]
        omega

/-- The effective layer order of a candidate is below the registry size. -/
theorem candLayerOrder_lt_length (reg : LayerReg) (p : Candidate) (k : Nat)
    (h : candLayerOrder reg p = some k) : k < reg.length := by
  unfold candLayerOrder at h
  rcases hl : p.layerName with _ | n
  · simp [hl] at h
  · rw [hl] at h
    by_cases hn : n = ""
    · simp [hn] at h
    · simp [hn] at h
      exact layerLookup_lt_length reg n k h

/-- Every `!important` non-transition score is a finite value lying strictly
inside its origin's band of width `reg.length + 1`. -/
theorem important_score_band (reg : LayerReg) (r : Candidate)
    (hImp : r.important = true) (hOr : r.origin ≠ Origin.transition) :
    ∃ m, getCascadeScore reg r = Score.val m ∧
      (reg.length + 1) * (impBandRank r.origin + 6) ≤ m ∧
      m < (reg.length + 1) * (impBandRank r.origin + 7) := by
  rcases hO : r.origin <;> rcases h : candLayerOrder reg r with _ | k <;>
    simp [getCascadeScore, hImp, hO, impBandRank, h] at hOr ⊢ <;>
    omega

/-- Every normal non-transition score is a finite value inside its origin's
band `[INC * lo, INC * hi]`. -/
theorem normal_score_band (reg : LayerReg) (r : Candidate)
    (hImp : r.important = false) (hOr : r.origin ≠ Origin.transition) :
    ∃ m, getCascadeScore reg r = Score.val m ∧
      (reg.length + 1) * normBandLo r.origin ≤ m ∧
      m ≤ (reg.length + 1) * normBandHi r.origin := by
  rcases hO : r.origin <;> rcases h : candLayerOrder reg r with _ | k <;>
    simp [getCascadeScore, hImp, hO, normBandLo, normBandHi, h] at hOr ⊢ <;>
    first
    | omega
    | (have hk := candLayerOrder_lt_length reg r k h; omega)

/-- C1.  For `!important` non-transition candidates the cascade score orders
the origin bands user-agent > user > inline > author > animation; within the
author band a declaration in a layer of order `k` scores
`INC * 8 + (totalLayers - k)` (so the earlier-registered layer scores
strictly higher), and an unlayered author-important declaration scores the
bare band base `INC * 8`, strictly below every layered one. -/
theorem important_cascade_ordering (reg : LayerReg) (p q : Candidate)
    (hpImp : p.important = true) (hqImp : q.important = true)
    (hpOr : p.origin ≠ Origin.transition) (hqOr : q.origin ≠ Origin.transition) :
    (impBandRank q.origin < impBandRank p.origin →
      Score.blt (getCascadeScore reg q) (getCascadeScore reg p) = true)
    ∧ (∀ k, p.origin = Origin.author → candLayerOrder reg p = some k →
        getCascadeScore reg p = Score.val ((reg.length + 1) * 8 + (reg.length - k)))
    ∧ (p.origin = Origin.author → candLayerOrder reg p = none →
        getCascadeScore reg p = Score.val ((reg.length + 1) * 8))
    ∧ (∀ k1 k2, p.origin = Origin.author → q.origin = Origin.author →
        candLayerOrder reg p = some k1 → candLayerOrder reg q = some k2 → k1 < k2 →
        Score.blt (getCascadeScore reg q) (getCascadeScore reg p) = true)
    ∧ (∀ k, p.origin = Origin.author → q.origin = Origin.author →
        candLayerOrder reg p = some k → candLayerOrder reg q = none →
        Score.blt (getCascadeScore reg q) (getCascadeScore reg p) = true) := by
  refine ⟨?_, ?_, ?_, ?_, ?_⟩
  · intro hrank
    obtain ⟨mp, hmp, hplo, hphi⟩ := important_score_band reg p hpImp hpOr
    obtain ⟨mq, hmq, hqlo, hqhi⟩ := important_score_band reg q hqImp hqOr
    rw [hmp, hmq]
    have hmul : (reg.length + 1) * (impBandRank q.origin + 7) ≤
        (reg.length + 1) * (impBandRank p.origin + 6) :=
      mul_le_mul_left' (by omega) (reg.length + 1)
    have hlt : mq < mp := lt_of_lt_of_le hqhi (le_trans hmul hplo)
    simpa [Score.blt] using hlt
  · intro k hO hL
    simp [getCascadeScore, hpImp, hO, hL]
  · intro hO hL
    simp [getCascadeScore, hpImp, hO, hL]
  · intro k1 k2 hOp hOq hL1 hL2 hlt
    have hk2 := candLayerOrder_lt_length reg q k2 hL2
    simp [getCascadeScore, hpImp, hqImp, hOp, hOq, hL1, hL2, Score.blt]
    omega
  · intro k hOp hOq hL1 hL2
    have hk := candLayerOrder_lt_length reg p k hL1
    simp [getCascadeScore, hpImp, hqImp, hOp, hOq, hL1, hL2, Score.blt]
    omega

/-- Witness for C1: with layers `l1, l2` registered in that order, an
author-important declaration in `l1` outscores one in `l2`. -/
theorem important_cascade_ordering_witness :
    Score.blt
      (getCascadeScore ["l1", "l2"]
        { baseCand with important := true, layerName := some "l2" })
      (getCascadeScore ["l1", "l2"]
        { baseCand with important := true, layerName := some "l1" }) = true := by
  have h := important_cascade_ordering ["l1", "l2"]
      { baseCand with important := true, layerName := some "l1" }
      { baseCand with important := true, layerName := some "l2" }
      rfl rfl (by decide) (by decide)
  exact h.2.2.2.1 0 1 rfl rfl (by decide) (by decide) (by decide)

/-- C2.  For normal (non-`!important`) non-transition candidates the cascade
score orders the bands animation > inline > author > user > user-agent;
within the author band a layered declaration of layer order `k` scores
`INC * 3 + k` (later-registered layer scores strictly higher), an unlayered
author-normal declaration scores `INC * 3 + (totalLayers + 1)`, strictly
above every layered author-normal declaration and still below inline. -/
theorem normal_cascade_ordering (reg : LayerReg) (p q : Candidate)
    (hpImp : p.important = false) (hqImp : q.important = false)
    (hpOr : p.origin ≠ Origin.transition) (hqOr : q.origin ≠ Origin.transition) :
    (normBandRank q.origin < normBandRank p.origin →
      Score.blt (getCascadeScore reg q) (getCascadeScore reg p) = true)
    ∧ (∀ k, p.origin = Origin.author → candLayerOrder reg p = some k →
        getCascadeScore reg p = Score.val ((reg.length + 1) * 3 + k))
    ∧ (p.origin = Origin.author → candLayerOrder reg p = none →
        getCascadeScore reg p = Score.val ((reg.length + 1) * 3 + (reg.length + 1)))
    ∧ (∀ k1 k2, p.origin = Origin.author → q.origin = Origin.author →
        candLayerOrder reg p = some k1 → candLayerOrder reg q = some k2 → k1 < k2 →
        Score.blt (getCascadeScore reg p) (getCascadeScore reg q) = true)
    ∧ (∀ k, p.origin = Origin.author → q.origin = Origin.author →
        candLayerOrder reg p = none → candLayerOrder reg q = some k →
        Score.blt (getCascadeScore reg q) (getCascadeScore reg p) = true)
    ∧ (p.origin = Origin.author → q.origin = Origin.inline →
        Score.blt (getCascadeScore reg p) (getCascadeScore reg q) = true) := by
  refine ⟨?_, ?_, ?_, ?_, ?_, ?_⟩
  · intro hrank
    obtain ⟨mp, hmp, hplo, hphi⟩ := normal_score_band reg p hpImp hpOr
    obtain ⟨mq, hmq, hqlo, hqhi⟩ := normal_score_band reg q hqImp hqOr
    rw [hmp, hmq]
    have hsep : normBandHi q.origin < normBandLo p.origin := by
      rcases hOp : p.origin <;> rcases hOq : q.origin <;>
        simp [hOp, hOq, normBandRank, normBandLo, normBandHi] at hpOr hqOr hrank ⊢
    have hmul : (reg.length + 1) * normBandHi q.origin <
        (reg.length + 1) * normBandLo p.origin :=
      mul_lt_mul_of_pos_left hsep (by omega)
    have hlt : mq < mp := lt_of_le_of_lt hqhi (lt_of_lt_of_le hmul hplo)
    simpa [Score.blt] using hlt
  · intro k hO hL
    simp [getCascadeScore, hpImp, hO, hL]
  · intro hO hL
    simp [getCascadeScore, hpImp, hO, hL]
  · intro k1 k2 hOp hOq hL1 hL2 hlt
    simp [getCascadeScore, hpImp, hqImp, hOp, hOq, hL1, hL2, Score.blt]
    omega
  · intro k hOp hOq hL1 hL2
    have hk := candLayerOrder_lt_length reg q k hL2
    simp [getCascadeScore, hpImp, hqImp, hOp, hOq, hL1, hL2, Score.blt]
    omega
  · intro hOp hOq
    obtain ⟨mp, hmp, hplo, hphi⟩ := normal_score_band reg p hpImp hpOr
    obtain ⟨mq, hmq, hqlo, hqhi⟩ := normal_score_band reg q hqImp hqOr
    rw [hmp, hmq]
    have hmul : (reg.length + 1) * normBandHi p.origin <
        (reg.length + 1) * normBandLo q.origin := by
      apply mul_lt_mul_of_pos_left _ (by omega : (0:Nat) < reg.length + 1)
      rw [hOp, hOq]
      simp [normBandLo, normBandHi]
    have hlt : mp < mq := lt_of_le_of_lt hphi (lt_of_lt_of_le hmul hqlo)
    simpa [Score.blt] using hlt

/-- Witness for C2: with layers `l1, l2`, a normal author declaration in
`l2` (later-registered) outscores one in `l1`. -/
theorem normal_cascade_ordering_witness :
    Score.blt
      (getCascadeScore ["l1", "l2"] { baseCand with layerName := some "l1" })
      (getCascadeScore ["l1", "l2"] { baseCand with layerName := some "l2" }) = true := by
  have h := normal_cascade_ordering ["l1", "l2"]
      { baseCand with layerName := some "l1" }
      { baseCand with layerName := some "l2" }
      rfl rfl (by decide) (by decide)
  exact h.2.2.2.1 0 1 rfl rfl (by decide) (by decide) (by decide)

theorem Score.blt_irrefl (a : Score) : Score.blt a a = false := by
  cases a <;> simp [Score.blt]

theorem Score.blt_trans {a b c : Score} (h1 : Score.blt a b = true)
    (h2 : Score.blt b c = true) : Score.blt a c = true := by
  cases a <;> cases b <;> cases c <;> simp_all [Score.blt] <;> omega

theorem Score.blt_asymm {a b : Score} (h : Score.blt a b = true) :
    Score.blt b a = false := by
  cases a <;> cases b <;> simp_all [Score.blt] <;> omega

theorem Score.blt_total {a b : Score} (h : a ≠ b) :
    Score.blt a b = true ∨ Score.blt b a = true := by
  cases a <;> cases b <;> simp_all [Score.blt] <;> omega

/-- Component form of the `specificityGreater = some true` characterisation. -/
theorem sg_true_iff0 (a1 b1 c1 d1 a2 b2 c2 d2 : Nat) :
    specificityGreater (a1, b1, c1, d1) (a2, b2, c2, d2) = some true ↔
      (a2 < a1 ∨ (a1 = a2 ∧ (b2 < b1 ∨ (b1 = b2 ∧
        (c2 < c1 ∨ (c1 = c2 ∧ d2 < d1)))))) := by
  unfold specificityGreater
  split_ifs <;> simp_all <;> omega

/-- `specificityGreater s1 s2 = some true` is first-difference lexicographic
strict dominance of `s1` over `s2`. -/
theorem sg_true_iff (s1 s2 : SpecVal) :
    specificityGreater s1 s2 = some true ↔
      (s2.1 < s1.1 ∨ (s1.1 = s2.1 ∧ (s2.2.1 < s1.2.1 ∨ (s1.2.1 = s2.2.1 ∧
        (s2.2.2.1 < s1.2.2.1 ∨ (s1.2.2.1 = s2.2.2.1 ∧ s2.2.2.2 < s1.2.2.2)))))) := by
  obtain ⟨a1, b1, c1, d1⟩ := s1
  obtain ⟨a2, b2, c2, d2⟩ := s2
  exact sg_true_iff0 a1 b1 c1 d1 a2 b2 c2 d2

/-- Component form of the `specificityGreater = none` characterisation. -/
theorem sg_none_iff0 (a1 b1 c1 d1 a2 b2 c2 d2 : Nat) :
    specificityGreater (a1, b1, c1, d1) (a2, b2, c2, d2) = none ↔
      (a1 = a2 ∧ b1 = b2 ∧ c1 = c2 ∧ d1 = d2) := by
  unfold specificityGreater
  split_ifs <;> simp_all <;> omega

/-- `specificityGreater` returns `none` exactly on equal tuples. -/
theorem sg_none_iff (s1 s2 : SpecVal) :
    specificityGreater s1 s2 = none ↔ s1 = s2 := by
  obtain ⟨a1, b1, c1, d1⟩ := s1
  obtain ⟨a2, b2, c2, d2⟩ := s2
  rw [sg_none_iff0]
  simp [Prod.ext_iff]

/-- Component form of the `some false` mirror lemma. -/
theorem sg_false_iff0 (a1 b1 c1 d1 a2 b2 c2 d2 : Nat) :
    specificityGreater (a1, b1, c1, d1) (a2, b2, c2, d2) = some false ↔
      specificityGreater (a2, b2, c2, d2) (a1, b1, c1, d1) = some true := by
  rw [sg_true_iff0]
  unfold specificityGreater
  split_ifs <;> simp_all <;> omega

/-- `some false` is the mirror image of `some true`. -/
theorem sg_false_iff (s1 s2 : SpecVal) :
    specificityGreater s1 s2 = some false ↔ specificityGreater s2 s1 = some true := by
  obtain ⟨a1, b1, c1, d1⟩ := s1
  obtain ⟨a2, b2, c2, d2⟩ := s2
  exact sg_false_iff0 a1 b1 c1 d1 a2 b2 c2 d2

theorem sg_trans {s1 s2 s3 : SpecVal} (h1 : specificityGreater s1 s2 = some true)
    (h2 : specificityGreater s2 s3 = some true) :
    specificityGreater s1 s3 = some true := by
  rw [sg_true_iff] at h1 h2 ⊢
  omega

theorem oidxCmp_self (x : OIdx) : oidxCmp x x = 0 := by
  cases x <;> simp [oidxCmp]

theorem oidxCmp_neg (x y : OIdx) : oidxCmp x y = -oidxCmp y x := by
  cases x <;> cases y <;> simp [oidxCmp] <;> split_ifs <;> omega

theorem oidxCmp_trans {x y z : OIdx} (h1 : oidxCmp x y ≤ 0) (h2 : oidxCmp y z ≤ 0) :
    oidxCmp x z ≤ 0 := by
  cases x <;> cases y <;> cases z <;> simp_all [oidxCmp] <;> split_ifs at * <;> omega

/-- The comparator is reflexive at zero. -/
theorem declCmp_self (reg : LayerReg) (a : Candidate) : declCmp reg a a = 0 := by
  simp [declCmp, (sg_none_iff a.specificity a.specificity).mpr rfl, oidxCmp_self]

/-- Swapping the comparator's arguments negates its sign. -/
theorem declCmp_neg (reg : LayerReg) (a b : Candidate) :
    declCmp reg a b = -declCmp reg b a := by
  unfold declCmp
  by_cases h : getCascadeScore reg a = getCascadeScore reg b
  · rw [if_pos h, if_pos h.symm]
    rcases hsg : specificityGreater a.specificity b.specificity with _ | bv
    · rw [sg_none_iff] at hsg
      rw [(sg_none_iff b.specificity a.specificity).mpr hsg.symm]
      exact oidxCmp_neg _ _
    · cases bv
      · rw [(sg_false_iff _ _).mp hsg]
        rfl
      · rw [(sg_false_iff _ _).mpr hsg]
  · have h' : getCascadeScore reg b ≠ getCascadeScore reg a := fun hh => h hh.symm
    rw [if_neg h, if_neg h']
    rcases Score.blt_total h with hb | hb
    · rw [if_pos hb, if_neg (by simp [Score.blt_asymm hb])]
      rfl
    · rw [if_neg (by simp [Score.blt_asymm hb]), if_pos hb]

/-- Characterisation of a non-positive comparator value: `a` is ranked no
later than `b` iff `a` has the higher score, or equal score and strictly
greater specificity, or equal score, equal specificity and no smaller
order index. -/
theorem declCmp_nonpos_iff (reg : LayerReg) (a b : Candidate) :
    declCmp reg a b ≤ 0 ↔
      (Score.blt (getCascadeScore reg b) (getCascadeScore reg a) = true ∨
        (getCascadeScore reg a = getCascadeScore reg b ∧
          (specificityGreater a.specificity b.specificity = some true ∨
            (a.specificity = b.specificity ∧
              oidxCmp b.orderIndex a.orderIndex ≤ 0)))) := by
  unfold declCmp
  by_cases h : getCascadeScore reg a = getCascadeScore reg b
  · rw [if_pos h]
    have hblt : Score.blt (getCascadeScore reg b) (getCascadeScore reg a) = false := by
      rw [h]
      exact Score.blt_irrefl _
    rcases hsg : specificityGreater a.specificity b.specificity with _ | bv
    · have hspec := (sg_none_iff _ _).mp hsg
      simp [hsg, h, hspec, Score.blt_irrefl]
    · cases bv
      · have hne : a.specificity ≠ b.specificity := by
          intro he
          rw [(sg_none_iff _ _).mpr he] at hsg
          cases hsg
        simp [hsg, h, hne, Score.blt_irrefl]
      · simp [hsg, h, Score.blt_irrefl]
  · rw [if_neg h]
    rcases Score.blt_total h with hb | hb
    · have hba := Score.blt_asymm hb
      rw [if_pos hb]
      simp [hba, h]
    · have hab := Score.blt_asymm hb
      rw [if_neg (by simp [hab])]
      simp [hb]

/-- Transitivity of the comparator's non-strict order. -/
theorem declCmp_trans (reg : LayerReg) (a b c : Candidate)
    (h1 : declCmp reg a b ≤ 0) (h2 : declCmp reg b c ≤ 0) :
    declCmp reg a c ≤ 0 := by
  rw [declCmp_nonpos_iff] at h1 h2 ⊢
  rcases h1 with h1 | ⟨hs1, h1⟩
  · rcases h2 with h2 | ⟨hs2, h2⟩
    · exact Or.inl (Score.blt_trans h2 h1)
    · rw [hs2] at h1
      exact Or.inl h1
  · rcases h2 with h2 | ⟨hs2, h2⟩
    · rw [hs1]
      exact Or.inl h2
    · refine Or.inr ⟨hs1.trans hs2, ?_⟩
      rcases h1 with h1 | ⟨he1, h1⟩
      · rcases h2 with h2 | ⟨he2, h2⟩
        · exact Or.inl (sg_trans h1 h2)
        · rw [← he2]
          exact Or.inl h1
      · rcases h2 with h2 | ⟨he2, h2⟩
        · rw [he1]
          exact Or.inl h2
        · exact Or.inr ⟨he1.trans he2, oidxCmp_trans h2 h1⟩

/-- Totality of the comparator's non-strict order. -/
theorem declCmp_total (reg : LayerReg) (a b : Candidate) :
    declCmp reg a b ≤ 0 ∨ declCmp reg b a ≤ 0 := by
  by_cases h : declCmp reg a b ≤ 0
  · exact Or.inl h
  · right
    rw [declCmp_neg]
    omega

/-- The sorted candidate list is pairwise ordered by the comparator. -/
theorem sortCands_pairwise (reg : LayerReg) (cands : List Candidate) :
    (sortCands reg cands).Pairwise (fun x y => declCmp reg x y ≤ 0) := by
  haveI : IsTotal Candidate (declLe reg) := ⟨declCmp_total reg⟩
  haveI : IsTrans Candidate (declLe reg) := ⟨declCmp_trans reg⟩
  exact List.sorted_insertionSort (declLe reg) cands

/-- If `resolveProperty` produces a winner, the winner is the head of the
sorted list with `active := true`, and the head compares no later than every
candidate in the input list. -/
theorem resolveProperty_head (reg : LayerReg) (cands : List Candidate)
    (w : Candidate) (h : resolveProperty reg cands = some w) :
    ∃ h0 t, sortCands reg cands = h0 :: t ∧ w = { h0 with active := true } ∧
      ∀ c ∈ cands, declCmp reg h0 c ≤ 0 := by
  unfold resolveProperty at h
  rcases hs : sortCands reg cands with _ | ⟨h0, t⟩
  · rw [hs] at h
    cases h
  · rw [hs] at h
    refine ⟨h0, t, rfl, by injection h with h; exact h.symm, ?_⟩
    intro c hc
    have hmem : c ∈ sortCands reg cands :=
      ((List.perm_insertionSort (declLe reg) cands).mem_iff).mpr hc
    rw [hs] at hmem
    rcases List.mem_cons.mp hmem with hcc | hct
    · rw [hcc]
      rw [declCmp_self]
    · have hpw := sortCands_pairwise reg cands
      rw [hs] at hpw
      exact (List.pairwise_cons.mp hpw).1 c hct

/-- C3.  For two candidates of equal cascade score, the one whose 4-component
specificity is lexicographically greater (most-significant component first)
is ranked ahead by the sort comparator; when the specificities are also
equal, the one with the larger rule `orderIndex` is ranked ahead; the sorted
candidate list is ordered by the comparator and its head, with
`active := true`, is the winner stored in `finalProperties`. -/
theorem tiebreak_specificity_then_order (reg : LayerReg) :
    (∀ a b : Candidate, getCascadeScore reg a = getCascadeScore reg b →
      ((b.specificity.1 < a.specificity.1 ∨ (a.specificity.1 = b.specificity.1 ∧
        (b.specificity.2.1 < a.specificity.2.1 ∨ (a.specificity.2.1 = b.specificity.2.1 ∧
          (b.specificity.2.2.1 < a.specificity.2.2.1 ∨ (a.specificity.2.2.1 = b.specificity.2.2.1 ∧
            b.specificity.2.2.2 < a.specificity.2.2.2)))))) →
        declCmp reg a b < 0)
      ∧ (a.specificity = b.specificity →
          (∀ m n, a.orderIndex = OIdx.fin m → b.orderIndex = OIdx.fin n → n < m →
            declCmp reg a b < 0)
          ∧ (∀ n, a.orderIndex = OIdx.inf → b.orderIndex = OIdx.fin n →
            declCmp reg a b < 0)))
    ∧ (∀ cands : List Candidate,
        (sortCands reg cands).Pairwise (fun x y => declCmp reg x y ≤ 0))
    ∧ (∀ cands w, resolveProperty reg cands = some w →
        ∃ h0 t, sortCands reg cands = h0 :: t ∧ w = { h0 with active := true } ∧
          ∀ c ∈ cands, declCmp reg h0 c ≤ 0)
    ∧ (∀ cands n w, (n, w) ∈ finalPropertiesList reg cands →
        resolveProperty reg (candidatesFor cands n) = some w) := by
  refine ⟨?_, sortCands_pairwise reg, resolveProperty_head reg, ?_⟩
  case refine_2 =>
    intro cands n w hmem
    unfold finalPropertiesList at hmem
    rw [List.mem_filterMap] at hmem
    obtain ⟨n2, _, heq⟩ := hmem
    rw [Option.map_eq_some'] at heq
    obtain ⟨w2, hw2, heq2⟩ := heq
    cases heq2
    exact hw2
  intro a b hs
  constructor
  · intro hlex
    have hsg : specificityGreater a.specificity b.specificity = some true :=
      (sg_true_iff _ _).mpr hlex
    simp [declCmp, hs, hsg]
  · intro hspec
    have hsg : specificityGreater a.specificity b.specificity = none :=
      (sg_none_iff _ _).mpr hspec
    constructor
    · intro m n ham hbn hlt
      simp [declCmp, hs, hsg, ham, hbn, oidxCmp]
      omega
    · intro n ha hb
      simp [declCmp, hs, hsg, ha, hb, oidxCmp]

/-- Witness for C3: equal scores, higher class-count specificity ranks ahead. -/
theorem tiebreak_specificity_then_order_witness :
    declCmp [] { baseCand with specificity := (0, 1, 0, 0) }
      { baseCand with specificity := (0, 0, 5, 0) } < 0 :=
  ((tiebreak_specificity_then_order []).1
    { baseCand with specificity := (0, 1, 0, 0) }
    { baseCand with specificity := (0, 0, 5, 0) }
    (by decide)).1 (by decide)

/-- A score is `+Infinity` exactly for important transition declarations. -/
theorem score_posInf_iff (reg : LayerReg) (q : Candidate) :
    getCascadeScore reg q = Score.posInf ↔
      (q.origin = Origin.transition ∧ q.important = true) := by
  rcases hO : q.origin <;> rcases hI : q.important <;>
    simp [getCascadeScore, hO, hI]

theorem Score.blt_posInf {x : Score} (h : x ≠ Score.posInf) :
    Score.blt x Score.posInf = true := by
  cases x <;> simp_all [Score.blt]

theorem Score.blt_to_negInf (x : Score) : Score.blt x Score.negInf = false := by
  cases x <;> simp [Score.blt]

theorem Score.blt_from_posInf (x : Score) : Score.blt Score.posInf x = false := by
  cases x <;> simp [Score.blt]

/-- C4.  A transition-origin declaration scores `+Infinity` when important and
`-Infinity` otherwise; consequently an important transition candidate is
ranked ahead of every candidate that is not itself an important transition
(and wins the property), while a non-important transition candidate is
ranked behind every normal non-transition candidate. -/
theorem transition_extremity (reg : LayerReg) (p : Candidate)
    (hOr : p.origin = Origin.transition) :
    (p.important = true → getCascadeScore reg p = Score.posInf)
    ∧ (p.important = false → getCascadeScore reg p = Score.negInf)
    ∧ (∀ q : Candidate, p.important = true →
        ¬(q.origin = Origin.transition ∧ q.important = true) →
        declCmp reg p q < 0)
    ∧ (∀ q : Candidate, p.important = false → q.origin ≠ Origin.transition →
        q.important = false → declCmp reg q p < 0)
    ∧ (∀ cands w, p ∈ cands → p.important = true →
        resolveProperty reg cands = some w →
        w.origin = Origin.transition ∧ w.important = true) := by
  refine ⟨?_, ?_, ?_, ?_, ?_⟩
  · intro h
    simp [getCascadeScore, hOr, h]
  · intro h
    simp [getCascadeScore, hOr, h]
  · intro q hImp hq
    have hp : getCascadeScore reg p = Score.posInf :=
      (score_posInf_iff reg p).mpr ⟨hOr, hImp⟩
    have hqne : getCascadeScore reg q ≠ Score.posInf := fun hh =>
      hq ((score_posInf_iff reg q).mp hh)
    unfold declCmp
    rw [if_neg (by rw [hp]; exact fun hh => hqne hh.symm)]
    rw [hp, Score.blt_from_posInf]
    simp
  · intro q hImp hqOr hqImp
    have hp : getCascadeScore reg p = Score.negInf := by
      simp [getCascadeScore, hOr, hImp]
    have hqn : getCascadeScore reg q ≠ Score.negInf := by
      obtain ⟨m, hm, _, _⟩ := normal_score_band reg q hqImp hqOr
      rw [hm]
      simp
    unfold declCmp
    rw [if_neg (by rw [hp]; exact hqn)]
    rw [hp, Score.blt_to_negInf]
    simp
  · intro cands w hmem hImp hres
    obtain ⟨h0, t, hsort, hw, hmax⟩ := resolveProperty_head reg cands w hres
    have hcmp := hmax p hmem
    have hp : getCascadeScore reg p = Score.posInf :=
      (score_posInf_iff reg p).mpr ⟨hOr, hImp⟩
    have h0p : getCascadeScore reg h0 = Score.posInf := by
      by_contra hne
      have hone : declCmp reg h0 p = 1 := by
        unfold declCmp
        rw [if_neg (by rw [hp]; exact hne)]
        rw [hp, if_pos (Score.blt_posInf hne)]
      rw [hone] at hcmp
      omega
    obtain ⟨ho, hi⟩ := (score_posInf_iff reg h0).mp h0p
    rw [hw]
    exact ⟨ho, hi⟩

/-- Witness for C4: an important transition candidate is ranked ahead of a
normal author candidate. -/
theorem transition_extremity_witness :
    declCmp [] { baseCand with origin := Origin.transition, important := true }
      baseCand < 0 :=
  (transition_extremity [] { baseCand with origin := Origin.transition, important := true }
    rfl).2.2.1 baseCand rfl (by decide)

/-- C10.  A candidate whose `layerName` is not recorded in the registry is
scored exactly like the same candidate without a layer: no layer bonus when
important, and the unlayered author bonus `totalLayers + 1` when normal. -/
theorem unknown_layer_scored_unlayered (reg : LayerReg) (p : Candidate)
    (n : String) (hn : p.layerName = some n)
    (hmiss : layerLookup reg n = none) :
    getCascadeScore reg p = getCascadeScore reg { p with layerName := none }
    ∧ (p.origin = Origin.author → p.important = true →
        getCascadeScore reg p = Score.val ((reg.length + 1) * 8))
    ∧ (p.origin = Origin.author → p.important = false →
        getCascadeScore reg p = Score.val ((reg.length + 1) * 3 + (reg.length + 1))) := by
  have hcl : candLayerOrder reg p = none := by
    unfold candLayerOrder
    rw [hn]
    by_cases he : n = ""
    · simp [he]
    · simp [he, hmiss]
  have hcl' : candLayerOrder reg { p with layerName := none } = none := rfl
  refine ⟨?_, ?_, ?_⟩
  · simp [getCascadeScore, hcl, hcl']
  · intro hO hI
    simp [getCascadeScore, hcl, hO, hI]
  · intro hO hI
    simp [getCascadeScore, hcl, hO, hI]

/-- Witness for C10: with registry `["x"]`, a candidate naming the unknown
layer `"zzz"` gets the unlayered author-normal score `2 * 3 + 2 = 8`. -/
theorem unknown_layer_scored_unlayered_witness :
    getCascadeScore ["x"] { baseCand with layerName := some "zzz" } =
      Score.val 8 :=
  (unknown_layer_scored_unlayered ["x"] { baseCand with layerName := some "zzz" }
    "zzz" rfl (by decide)).2.2 rfl rfl

/-- C5.  For an element whose writing-mode/direction/orientation resolve to
block-start `bs` and inline-start `inl`, a logical property of the
`*-block-start` / `*-block-end` / `*-inline-start` / `*-inline-end` kind
expands only to physical names matching that single resolved direction
(where "width" stands in for left/right and "height" for top/bottom, as the
`dirMatch` equations state); in particular `margin-inline-start` under
`direction: rtl; writing-mode: horizontal-tb` expands to exactly
`margin-right`. -/
theorem logical_single_direction_mapping (caps : Caps) (el : Elem) (p : String)
    (bs inl : Dir) (hdirs : resolveDirs el = some (bs, inl))
    (hkey : (logicalPropsMaps.find? (fun m => m.fst = p)).isSome = true) :
    (strIncl p "block-start" = true →
      ∀ phys ∈ mapPropToPhysical caps el p, dirMatch phys bs = true)
    ∧ (strIncl p "block-start" = false → strIncl p "block-end" = true →
      ∀ phys ∈ mapPropToPhysical caps el p, dirMatch phys (oppositeDir bs) = true)
    ∧ (strIncl p "block-start" = false → strIncl p "block-end" = false →
        strIncl p "inline-start" = true →
      ∀ phys ∈ mapPropToPhysical caps el p, dirMatch phys inl = true)
    ∧ (strIncl p "block-start" = false → strIncl p "block-end" = false →
        strIncl p "inline-start" = false → strIncl p "inline-end" = true →
      ∀ phys ∈ mapPropToPhysical caps el p, dirMatch phys (oppositeDir inl) = true)
    ∧ (∀ s : String, dirMatch s Dir.right = (strIncl s "right" || strIncl s "width"))
    ∧ (∀ s : String, dirMatch s Dir.bottom = (strIncl s "bottom" || strIncl s "height"))
    ∧ (∀ (caps2 : Caps) (el2 : Elem), el2.writingMode = "horizontal-tb" →
        el2.direction = "rtl" →
        mapPropToPhysical caps2 el2 "margin-inline-start" = ["margin-right"]) := by
  obtain ⟨entry, hfind⟩ := Option.isSome_iff_exists.mp hkey
  refine ⟨?_, ?_, ?_, ?_, fun s => rfl, fun s => rfl, ?_⟩
  · intro h1 phys hmem
    unfold mapPropToPhysical at hmem
    rw [hfind] at hmem
    simp only [hdirs, Option.map_some] at hmem
    have hp := (List.mem_filter.mp hmem).2
    simpa [h1, dirMatchO] using hp
  · intro h1 h2 phys hmem
    unfold mapPropToPhysical at hmem
    rw [hfind] at hmem
    simp only [hdirs, Option.map_some] at hmem
    have hp := (List.mem_filter.mp hmem).2
    simpa [h1, h2, dirMatchO] using hp
  · intro h1 h2 h3 phys hmem
    unfold mapPropToPhysical at hmem
    rw [hfind] at hmem
    simp only [hdirs, Option.map_some] at hmem
    have hp := (List.mem_filter.mp hmem).2
    simpa [h1, h2, h3, dirMatchO] using hp
  · intro h1 h2 h3 h4 phys hmem
    unfold mapPropToPhysical at hmem
    rw [hfind] at hmem
    simp only [hdirs, Option.map_some] at hmem
    have hp := (List.mem_filter.mp hmem).2
    simpa [h1, h2, h3, h4, dirMatchO] using hp
  · intro caps2 el2 h1 h2
    have hd : resolveDirs el2 = some (Dir.top, Dir.right) := by
      simp [resolveDirs, h1, h2]
    have hfind2 : logicalPropsMaps.find? (fun m => m.fst = "margin-inline-start") =
        some ("margin-inline-start",
          ["margin-top", "margin-bottom", "margin-left", "margin-right"]) := by
      decide
    unfold mapPropToPhysical
    rw [hfind2, hd]
    rfl

/-- Witness for C5: the `margin-inline-start` / rtl / horizontal-tb case. -/
theorem logical_single_direction_mapping_witness :
    mapPropToPhysical
      { isShorthandFn := fun _ => false, expandFn := fun _ => [],
        matchMedia := fun _ => none, supportsCheck := fun _ => none }
      { matchesSel := fun _ => some false, inlineDecls := [],
        writingMode := "horizontal-tb", direction := "rtl", textOrientation := "" }
      "margin-inline-start" = ["margin-right"] :=
  (logical_single_direction_mapping
    { isShorthandFn := fun _ => false, expandFn := fun _ => [],
      matchMedia := fun _ => none, supportsCheck := fun _ => none }
    { matchesSel := fun _ => some false, inlineDecls := [],
      writingMode := "horizontal-tb", direction := "rtl", textOrientation := "" }
    "margin-inline-start" Dir.top Dir.right (by decide)
    (by decide)).2.2.2.2.2.2
    { isShorthandFn := fun _ => false, expandFn := fun _ => [],
      matchMedia := fun _ => none, supportsCheck := fun _ => none }
    { matchesSel := fun _ => some false, inlineDecls := [],
      writingMode := "horizontal-tb", direction := "rtl", textOrientation := "" }
    rfl rfl

/-- C8.  A rule's conditional stack applies iff every context evaluates to
`true` under its kind's evaluator (the empty stack vacuously applies), and a
media or supports condition whose external evaluation throws (modelled as
`none`) evaluates to `false`, making any stack that contains it
inapplicable. -/
theorem conditional_contexts_conjunction (caps : Caps) (el : Elem) :
    (∀ contexts : List ConditionalContext,
      areConditionalContextsMet caps contexts el = true ↔
        ∀ ctx ∈ contexts, evalContext caps el ctx = true)
    ∧ areConditionalContextsMet caps [] el = true
    ∧ (∀ q, caps.matchMedia q = none → evaluateMediaQuery caps q = false)
    ∧ (∀ q, caps.supportsCheck q = none → evaluateSupportsQuery caps q = false)
    ∧ (∀ pre post q ap, caps.matchMedia q = none →
        areConditionalContextsMet caps
          (pre ++ { kind := CtxKind.media, condition := q, applies := ap } :: post)
          el = false)
    ∧ (∀ pre post q ap, caps.supportsCheck q = none →
        areConditionalContextsMet caps
          (pre ++ { kind := CtxKind.supports, condition := q, applies := ap } :: post)
          el = false) := by
  refine ⟨?_, rfl, ?_, ?_, ?_, ?_⟩
  · intro contexts
    exact List.all_eq_true
  · intro q hq
    simp [evaluateMediaQuery, hq]
  · intro q hq
    simp [evaluateSupportsQuery, hq]
  · intro pre post q ap hq
    simp [areConditionalContextsMet, evalContext, evaluateMediaQuery, hq]
  · intro pre post q ap hq
    simp [areConditionalContextsMet, evalContext, evaluateSupportsQuery, hq]

/-- Witness for C8: a stack containing a malformed media query does not
apply. -/
theorem conditional_contexts_conjunction_witness :
    areConditionalContextsMet
      { isShorthandFn := fun _ => false, expandFn := fun _ => [],
        matchMedia := fun _ => none, supportsCheck := fun _ => some true }
      [{ kind := CtxKind.media, condition := "screen and (", applies := false }]
      { matchesSel := fun _ => some false, inlineDecls := [],
        writingMode := "", direction := "", textOrientation := "" } = false :=
  (conditional_contexts_conjunction
    { isShorthandFn := fun _ => false, expandFn := fun _ => [],
      matchMedia := fun _ => none, supportsCheck := fun _ => some true }
    { matchesSel := fun _ => some false, inlineDecls := [],
      writingMode := "", direction := "", textOrientation := "" }).2.2.2.2.1
    [] [] "screen and (" false rfl

/-- Counterexample to C6.  In the concrete two-rule scenario the winning
declaration is `.b`'s (`blue` wins `color` and is stored `active: true`),
but the losing candidate's `overshadowedBy.ruleSelector` is `"color"` (the
loser's own original property name, per-property loop, lines 687-697) and
the losing rule's annotation records `".a"` (the loser's own rule selector,
re-stamp, lines 782-795) — neither is the winning rule's selector `".b"`
required by the claim. -/
theorem overshadow_annotation_counterexample :
    ((resolveCascadeForElement [] capsW elW [ovRuleA, ovRuleB]).matchingRules.map
        (fun r => r.properties.map (fun p => (p.active, p.overshadowedBy)))
      = [[(false, some { ruleSelector := ".a", layerName := none })], [(true, none)]])
    ∧ ((markOvershadowed (sortCands [] (collectCandidates capsW elW [ovRuleA, ovRuleB]))).map
        (fun d => d.overshadowedBy)
      = [none, some { ruleSelector := "color", layerName := none }])
    ∧ ((resolveCascadeForElement [] capsW elW [ovRuleA, ovRuleB]).finalProperties.map
        (fun kv => (kv.fst, kv.snd.value, kv.snd.active)) = [("color", "blue", true)])
    ∧ ovRuleB.selector = ".b" ∧ (".a" : String) ≠ ".b" ∧ ("color" : String) ≠ ".b" := by
  refine ⟨by decide, by decide, by decide, rfl, by decide, by decide⟩

/-- C6 amended.  The winner stored in `finalProperties` is marked
`active: true`; in the per-property candidate loop every other candidate is
marked `active: false` with `overshadowedBy` recording the loser's own
original property name (falling back to its physical name) and the loser's
own layer; in the rule-level re-stamp a non-matching declaration is marked
`active: false` with `overshadowedBy` recording the losing rule's own
selector together with the winning declaration's layer when a final
property matches its declared name, and no `overshadowedBy` otherwise. -/
theorem annotation_behavior (reg : LayerReg) :
    (∀ cands w, resolveProperty reg cands = some w → w.active = true)
    ∧ (∀ w rest, markOvershadowed (w :: rest) =
        w :: rest.map (fun d =>
          { d with
            active := false
            overshadowedBy := some { ruleSelector := ovSelName d, layerName := d.layerName } }))
    ∧ (∀ fp rule prop kv,
        fp.find? (fun kv2 => kv2.snd.originalPropertyName = some prop.name) = some kv →
        stampCheck kv.snd rule prop = false →
        stampProp fp rule prop =
          { prop with
            active := false
            overshadowedBy := some { ruleSelector := rule.selector, layerName := kv.snd.layerName } })
    ∧ (∀ fp rule prop kv,
        fp.find? (fun kv2 => kv2.snd.originalPropertyName = some prop.name) = some kv →
        stampCheck kv.snd rule prop = true →
        stampProp fp rule prop = { prop with active := true })
    ∧ (∀ fp rule prop,
        fp.find? (fun kv2 => kv2.snd.originalPropertyName = some prop.name) = Option.none →
        stampProp fp rule prop = { prop with active := false, overshadowedBy := none }) := by
  refine ⟨?_, ?_, ?_, ?_, ?_⟩
  · intro cands w h
    unfold resolveProperty at h
    rcases hs : sortCands reg cands with _ | ⟨h0, t⟩ <;> rw [hs] at h
    · cases h
    · cases h
      rfl
  · intro w rest
    rfl
  · intro fp rule prop kv hfind hch
    unfold stampProp
    rw [hfind]
    simp [hch]
  · intro fp rule prop kv hfind hch
    unfold stampProp
    rw [hfind]
    simp [hch]
  · intro fp rule prop hfind
    unfold stampProp
    rw [hfind]

/-- Witness for the amended C6: on a one-candidate list the produced winner
carries `active = true`. -/
theorem annotation_behavior_witness :
    ({ baseCand with active := true } : Candidate).active = true :=
  (annotation_behavior []).1 [baseCand] { baseCand with active := true } (by decide)

/-- The rule-level re-stamp changes nothing but `active`/`overshadowedBy`. -/
theorem stampProp_strip (fp : List (String × Candidate)) (rule : CSSRuleAnalysis)
    (p : CSSPropertyInfo) :
    stripPropAnnotations (stampProp fp rule p) = stripPropAnnotations p := by
  unfold stampProp
  split
  · split_ifs <;> rfl
  · rfl

theorem annotateRuleProps_strip (fp : List (String × Candidate))
    (rule : CSSRuleAnalysis) :
    stripRuleAnnotations (annotateRuleProps fp rule) = stripRuleAnnotations rule := by
  unfold annotateRuleProps stripRuleAnnotations
  simp only [List.map_map]
  congr 1
  exact List.map_congr_left (fun p _ => stampProp_strip fp rule p)

/-- C9.  The resolver is a pure function of the element and the corpus: the
caller's `allRules` list is untouched (there is no state to mutate in this
embedding, matching the source, whose candidate records are fresh copies
spread at lines 570-575 and 1015-1028 and whose re-stamp rebuilds rules
with `{...rule}` / `{...prop}` at lines 756-797), and the annotated rules
it returns differ from the matched input rules only in the
`active`/`overshadowedBy` fields: erasing those fields from the output
recovers exactly the matched input rules (with the synthetic inline rule
appended). -/
theorem resolver_only_annotates (reg : LayerReg) (caps : Caps) (el : Elem)
    (allRules : List CSSRuleAnalysis) :
    (resolveCascadeForElement reg caps el allRules).matchingRules.map
        stripRuleAnnotations
      = (match getInlineStylesForElement el with
         | some inlineRule => getMatchingRulesForElement caps el allRules ++ [inlineRule]
         | Option.none => getMatchingRulesForElement caps el allRules).map
          stripRuleAnnotations := by
  unfold resolveCascadeForElement
  rw [List.map_map]
  exact List.map_congr_left (fun r _ => annotateRuleProps_strip _ r)

/-- `recordLayer` never removes registered names. -/
theorem recordLayer_mem (reg : LayerReg) (name n : String) (h : n ∈ reg) :
    n ∈ recordLayer reg name := by
  unfold recordLayer
  split
  · exact List.mem_append.mpr (Or.inl h)
  · exact h

/-- Folding `recordLayer` over a statement's name list keeps old names. -/
theorem foldl_recordLayer_mem (names : List String) (reg : LayerReg) (n : String)
    (h : n ∈ reg) : n ∈ names.foldl recordLayer reg := by
  induction names generalizing reg with
  | nil => exact h
  | cons x xs ih => exact ih _ (recordLayer_mem reg x n h)

mutual

/-- Processing a node never removes a registered layer name. -/
theorem processNode_layers_mono (st : DiscoveryState) (node : CSSNode) (n : String)
    (h : n ∈ st.layers) : n ∈ (processNode st node).layers := by
  cases node with
  | styleRule s =>
    simp only [processNode]
    exact h
  | importRule ident children =>
    simp only [processNode]
    exact processSheet_layers_mono st ident children n h
  | layerBlock name children =>
    simp only [processNode]
    exact processNodes_layers_mono _ children n (recordLayer_mem st.layers name n h)
  | layerStatement names =>
    simp only [processNode]
    exact foldl_recordLayer_mem names st.layers n h
  | mediaBlock cond children =>
    simp only [processNode]
    exact processNodes_layers_mono st children n h
  | supportsBlock cond children =>
    simp only [processNode]
    exact processNodes_layers_mono st children n h
  | containerBlock cond children =>
    simp only [processNode]
    exact processNodes_layers_mono st children n h

/-- Processing a rule list never removes a registered layer name. -/
theorem processNodes_layers_mono (st : DiscoveryState) (nodes : List CSSNode)
    (n : String) (h : n ∈ st.layers) : n ∈ (processNodes st nodes).layers := by
  cases nodes with
  | nil =>
    simp only [processNodes]
    exact h
  | cons x xs =>
    simp only [processNodes]
    exact processNodes_layers_mono _ xs n (processNode_layers_mono st x n h)

/-- Processing a sheet never removes a registered layer name. -/
theorem processSheet_layers_mono (st : DiscoveryState) (ident : String)
    (nodes : List CSSNode) (n : String) (h : n ∈ st.layers) :
    n ∈ (processSheet st ident nodes).layers := by
  unfold processSheet
  split
  · exact h
  · exact processNodes_layers_mono _ nodes n h

end

/-- Counterexample to C7.  A `getAllCSSRules` call on an empty sheet list
empties the processed set but leaves the prior layer registry in place, and
a second discovery pass keeps (and builds on) the first pass's layer
orders: after discovering layer `a` in pass one and layer `b` in pass two,
pass two's registry is `["a", "b"]` (so `b` has order 1, not 0), not the
`["b"]` a reinitialised registry would give. -/
theorem discovery_registry_not_reset_counterexample :
    (getAllCSSRules { layers := ["a"], processed := ["s1"] } []).processed = []
    ∧ (getAllCSSRules { layers := ["a"], processed := ["s1"] } []).layers = ["a"]
    ∧ (["a"] : List String) ≠ []
    ∧ (getAllCSSRules
        (getAllCSSRules { layers := [], processed := [] }
          [("s1", [CSSNode.layerBlock "a" []])])
        [("s2", [CSSNode.layerBlock "b" []])]).layers = ["a", "b"] := by
  refine ⟨rfl, rfl, by decide, ?_⟩
  simp [getAllCSSRules, processSheet, processNodes, processNode, recordLayer, layerLookup]

/-- C7 amended.  `getAllCSSRules` reinitialises only the processed-identifier
set at its start — its result is independent of the prior processed set —
while the Layer Order Registry is module-lifetime state that the call
starts from unchanged and only extends, so successive discovery passes
share layer-order state. -/
theorem discovery_reset_behavior (st st2 : DiscoveryState)
    (sheets : List (String × List CSSNode)) (hl : st.layers = st2.layers) :
    getAllCSSRules st sheets =
      sheets.foldl (fun s sheet => processSheet s sheet.fst sheet.snd)
        { layers := st.layers, processed := [] }
    ∧ getAllCSSRules st sheets = getAllCSSRules st2 sheets
    ∧ ∀ n ∈ st.layers, n ∈ (getAllCSSRules st sheets).layers := by
  refine ⟨rfl, ?_, ?_⟩
  · unfold getAllCSSRules
    rw [show ({ st with processed := [] } : DiscoveryState) =
      { st2 with processed := [] } from by rw [hl]]
  · have hfold : ∀ (shs : List (String × List CSSNode)) (s : DiscoveryState)
        (n : String), n ∈ s.layers →
        n ∈ (shs.foldl (fun s2 sheet => processSheet s2 sheet.fst sheet.snd) s).layers := by
      intro shs
      induction shs with
      | nil => exact fun s n h2 => h2
      | cons x xs ih =>
        exact fun s n h2 => ih _ n (processSheet_layers_mono s x.fst x.snd n h2)
    exact fun n hn => hfold sheets { st with processed := [] } n hn

/-- Witness for the amended C7: two calls differing only in the prior
processed set agree, and a previously registered layer survives the call. -/
theorem discovery_reset_behavior_witness :
    getAllCSSRules { layers := ["a"], processed := ["x"] } [] =
      getAllCSSRules { layers := ["a"], processed := ["y"] } []
    ∧ "a" ∈ (getAllCSSRules { layers := ["a"], processed := ["x"] } []).layers :=
  ⟨(discovery_reset_behavior { layers := ["a"], processed := ["x"] }
      { layers := ["a"], processed := ["y"] } [] rfl).2.1,
   (discovery_reset_behavior { layers := ["a"], processed := ["x"] }
      { layers := ["a"], processed := ["y"] } [] rfl).2.2 "a" (by decide)⟩

